import Mathlib

/-!
Verification of the Sparkify data-lake ETL (`etl.py`).

The pipeline reads two semi-structured datasets — catalog records
("song_data") and usage-log events ("log_data") — and derives five
analytical tables: Songs, Artists, Users, Time, Songplays.  We embed the
transformation logic shallowly: a dataframe is a `List` of rows, Spark's
`dropDuplicates` / `SELECT DISTINCT` is a keep-first deduplication,
`filter` is `List.filter`, a left-outer join is explicit, and the sink is
a store holding one optional table per output path.  Doubles occurring in
the data (song duration, play length, coordinates) are modelled as `Rat`:
the code only ever compares them for exact equality.
-/

set_option autoImplicit false

namespace Sparkify

/-- One catalog record, as read from `song_data/*/*/*/*.json`. -/
structure CatalogRecord where
  song_id : String
  title : String
  artist_id : String
  artist_name : String
  artist_location : String
  artist_latitude : Option Rat
  artist_longitude : Option Rat
  year : Int
  duration : Rat
deriving DecidableEq

/-- One usage-log event, as read from `log_data/*.json`.  A logged-out
interaction carries an empty `userId`. -/
structure UsageEvent where
  userId : String
  firstName : String
  lastName : String
  gender : String
  level : String
  page : String
  artist : String
  song : String
  length : Rat
  ts : Nat
  sessionId : Nat
  location : String
  userAgent : String
deriving DecidableEq

/-- A row of the Songs table:
`df.select('song_id', 'title', 'artist_name', 'artist_id', 'year', 'duration')`. -/
structure SongRow where
  song_id : String
  title : String
  artist_name : String
  artist_id : String
  year : Int
  duration : Rat
deriving DecidableEq

/-- A row of the Artists table:
`SELECT distinct artist_id, artist_name as name, artist_location as location,
artist_latitude as latitude, artist_longitude as longitude FROM songs`. -/
structure ArtistRow where
  artist_id : String
  name : String
  loc : String
  latitude : Option Rat
  longitude : Option Rat
deriving DecidableEq

/-- A row of the Users table:
`df.select('userId', 'firstName', 'lastName', 'gender', 'level')`. -/
structure UserRow where
  user_id : String
  first_name : String
  last_name : String
  gender : String
  level : String
deriving DecidableEq

/-- A row of the Time table.  `datetime` is the timestamp as epoch seconds
(the value `to_timestamp(from_unixtime(ts/1000))` denotes); the remaining
fields are the calendar decomposition that `date_format` / `weekofyear`
produce (columns Hour, DOW, DOM, DOY, Month, year, week). -/
structure TimeRow where
  datetime : Nat
  hour : Nat
  dow : String
  dom : Nat
  doy : Nat
  month : String
  year : Nat
  week : Nat
deriving DecidableEq

/-- A row of the Songplays table.  `timestamp` is the epoch-seconds value
the string column `timestamp` denotes; `song_id`/`artist_id` are `none` on
a join miss (left-outer semantics). -/
structure SongplayRow where
  timestamp : Nat
  user_id : String
  level : String
  song_id : Option String
  artist_id : Option String
  session_id : Nat
  loc : String
  user_agent : String
  month : String
  year : Nat
  songplay_id : Nat
deriving DecidableEq

/-! ### Keep-first deduplication

Spark's `dropDuplicates([cols])` keeps one row per distinct key.  In the
sequential model the surviving row is the first occurrence; `dedupByKey`
with `key = id` models `dropDuplicates()` / `SELECT DISTINCT` over the
whole row. -/

variable {α κ : Type}

/-- Worker for `dedupByKey`: `seen` holds the keys already emitted. -/
def dedupKeyGo [DecidableEq κ] (key : α → κ) (seen : List κ) : List α → List α
  | [] => []
  | x :: xs =>
    if key x ∈ seen then dedupKeyGo key seen xs
    else x :: dedupKeyGo key (key x :: seen) xs

/-- Keep-first deduplication by a key function (model of `dropDuplicates`). -/
def dedupByKey [DecidableEq κ] (key : α → κ) (l : List α) : List α :=
  dedupKeyGo key [] l

theorem mem_of_mem_dedupKeyGo [DecidableEq κ] {key : α → κ} {a : α} :
    ∀ {seen : List κ} {l : List α}, a ∈ dedupKeyGo key seen l → a ∈ l := by
  intro seen l
  induction l generalizing seen with
  | nil => intro h; exact absurd h (List.not_mem_nil a)
  | cons x xs ih =>
    intro h
    simp only [dedupKeyGo] at h
    split at h
    · exact List.mem_cons_of_mem x (ih h)
    · rcases List.mem_cons.mp h with h | h
      · exact h ▸ List.mem_cons_self x xs
      · exact List.mem_cons_of_mem x (ih h)

theorem key_notMem_of_mem_dedupKeyGo [DecidableEq κ] {key : α → κ} {a : α} :
    ∀ {seen : List κ} {l : List α}, a ∈ dedupKeyGo key seen l → key a ∉ seen := by
  intro seen l
  induction l generalizing seen with
  | nil => intro h; exact absurd h (List.not_mem_nil a)
  | cons x xs ih =>
    intro h
    simp only [dedupKeyGo] at h
    split at h
    · exact ih h
    · rcases List.mem_cons.mp h with h | h
      · subst h; assumption
      · intro hmem
        exact ih h (List.mem_cons_of_mem _ hmem)

theorem pairwise_dedupKeyGo [DecidableEq κ] (key : α → κ) :
    ∀ (seen : List κ) (l : List α),
      (dedupKeyGo key seen l).Pairwise (fun a b => key a ≠ key b) := by
  intro seen l
  induction l generalizing seen with
  | nil => exact List.Pairwise.nil
  | cons x xs ih =>
    simp only [dedupKeyGo]
    split
    · exact ih seen
    · refine List.Pairwise.cons ?_ (ih (key x :: seen))
      intro b hb
      have := key_notMem_of_mem_dedupKeyGo hb
      intro hkey
      exact this (hkey ▸ List.mem_cons_self _ _)

theorem pairwise_dedupByKey [DecidableEq κ] (key : α → κ) (l : List α) :
    (dedupByKey key l).Pairwise (fun a b => key a ≠ key b) :=
  pairwise_dedupKeyGo key [] l

theorem mem_of_mem_dedupByKey [DecidableEq κ] {key : α → κ} {a : α} {l : List α}
    (h : a ∈ dedupByKey key l) : a ∈ l :=
  mem_of_mem_dedupKeyGo h

theorem exists_rep_dedupKeyGo [DecidableEq κ] (key : α → κ) (a : α) :
    ∀ (l : List α) (seen : List κ), a ∈ l →
      key a ∈ seen ∨ ∃ b ∈ dedupKeyGo key seen l, key b = key a := by
  intro l
  induction l with
  | nil => intro seen h; exact absurd h (List.not_mem_nil a)
  | cons x xs ih =>
    intro seen h
    simp only [dedupKeyGo]
    rcases List.mem_cons.mp h with h | h
    · subst h
      split
      · exact Or.inl (by assumption)
      · exact Or.inr ⟨a, List.mem_cons_self _ _, rfl⟩
    · split
      · exact ih seen h
      · rcases ih (key x :: seen) h with hseen | ⟨b, hb, hkey⟩
        · rcases List.mem_cons.mp hseen with heq | hseen
          · exact Or.inr ⟨x, List.mem_cons_self _ _, heq.symm⟩
          · exact Or.inl hseen
        · exact Or.inr ⟨b, List.mem_cons_of_mem x hb, hkey⟩

theorem exists_rep_dedupByKey [DecidableEq κ] (key : α → κ) {a : α} {l : List α}
    (h : a ∈ l) : ∃ b ∈ dedupByKey key l, key b = key a := by
  rcases exists_rep_dedupKeyGo key a l [] h with hseen | hrep
  · exact absurd hseen (List.not_mem_nil _)
  · exact hrep

/-- For whole-row deduplication (`key = id`), membership is preserved. -/
theorem mem_dedupByKey_id [DecidableEq α] {a : α} {l : List α} (h : a ∈ l) :
    a ∈ dedupByKey id l := by
  rcases exists_rep_dedupByKey id h with ⟨b, hb, hkey⟩
  have hba : b = a := hkey
  exact hba ▸ hb

/-! ### Calendar decomposition

`date_format(datetime, fmt)` and `weekofyear(datetime)` over a
timezone-naive timestamp.  A timestamp is epoch seconds (`Nat`); `z`
below is days since 1970-01-01 (a Thursday).  Civil dates are computed
with the standard era/day-of-era decomposition of the proleptic
Gregorian calendar. -/

/-- Era (400-year block) of the civil date `z` days after 1970-01-01. -/
def civilEra (z : Nat) : Nat := (z + 719468) / 146097

/-- Day of era (0–146096) of the civil date `z` days after 1970-01-01. -/
def civilDoe (z : Nat) : Nat := (z + 719468) % 146097

/-- Year of era (0–399) of the civil date `z` days after 1970-01-01. -/
def civilYoe (z : Nat) : Nat :=
  (civilDoe z - civilDoe z / 1460 + civilDoe z / 36524 - civilDoe z / 146096) / 365

/-- Day of the March-based year (0–365) of the civil date. -/
def civilDoy (z : Nat) : Nat :=
  civilDoe z - (365 * civilYoe z + civilYoe z / 4 - civilYoe z / 100)

/-- March-based month index (0 = March … 11 = February). -/
def civilMp (z : Nat) : Nat := (5 * civilDoy z + 2) / 153

/-- Month (1–12) of the civil date `z` days after 1970-01-01. -/
def monthOfDays (z : Nat) : Nat :=
  if civilMp z < 10 then civilMp z + 3 else civilMp z - 9

/-- Year of the civil date `z` days after 1970-01-01. -/
def yearOfDays (z : Nat) : Nat :=
  if monthOfDays z ≤ 2 then civilEra z * 400 + civilYoe z + 1
  else civilEra z * 400 + civilYoe z

/-- Day of month (1–31) of the civil date `z` days after 1970-01-01. -/
def dayOfDays (z : Nat) : Nat :=
  civilDoy z - (153 * civilMp z + 2) / 5 + 1

/-- Gregorian leap-year test. -/
def isLeap (y : Nat) : Bool :=
  y % 4 == 0 && (y % 100 != 0 || y % 400 == 0)

/-- Days in the months strictly before month `m` (1–12). -/
def daysBeforeMonth (leap : Bool) (m : Nat) : Nat :=
  let base :=
    match m with
    | 1 => 0 | 2 => 31 | 3 => 59 | 4 => 90 | 5 => 120 | 6 => 151
    | 7 => 181 | 8 => 212 | 9 => 243 | 10 => 273 | 11 => 304 | _ => 334
  if leap && m > 2 then base + 1 else base

/-- Day of year (1-based), `date_format(_, 'D')`. -/
def dayOfYearOfDays (z : Nat) : Nat :=
  daysBeforeMonth (isLeap (yearOfDays z)) (monthOfDays z) + dayOfDays z

/-- Full month names, `date_format(_, 'MMMM')`. -/
def monthNamesFull : List String :=
  ["January", "February", "March", "April", "May", "June", "July",
   "August", "September", "October", "November", "December"]

/-- Full month name of the civil date `z` days after 1970-01-01. -/
def monthNameOfDays (z : Nat) : String :=
  monthNamesFull.getD (monthOfDays z - 1) ""

/-- Short day-of-week names, `date_format(_, 'E')`; day 0 (1970-01-01)
was a Thursday. -/
def dowShortNames : List String :=
  ["Thu", "Fri", "Sat", "Sun", "Mon", "Tue", "Wed"]

/-- Short day-of-week name of day `z`. -/
def dowShortOfDays (z : Nat) : String :=
  dowShortNames.getD (z % 7) ""

/-- ISO day of week (Mon = 1 … Sun = 7) of day `z`. -/
def isoDowOfDays (z : Nat) : Nat :=
  (z + 3) % 7 + 1

/-- Day of week of 31 December of year `y` (4 = Thursday). -/
def lastDowOfYear (y : Nat) : Nat :=
  (y + y / 4 - y / 100 + y / 400) % 7

/-- Number of ISO weeks (52 or 53) in year `y`. -/
def isoWeeksInYear (y : Nat) : Nat :=
  if lastDowOfYear y == 4 || lastDowOfYear (y - 1) == 3 then 53 else 52

/-- ISO week of year, `weekofyear(datetime)`. -/
def weekOfYearOfDays (z : Nat) : Nat :=
  let w := (10 + dayOfYearOfDays z - isoDowOfDays z) / 7
  if w = 0 then isoWeeksInYear (yearOfDays z - 1)
  else if isoWeeksInYear (yearOfDays z) < w then 1
  else w

/-- Hour of day (0–23), `date_format(_, 'H')`. -/
def hourOfSeconds (t : Nat) : Nat :=
  t % 86400 / 3600

theorem monthOfDays_bounds (z : Nat) :
    1 ≤ monthOfDays z ∧ monthOfDays z ≤ 12 := by
  unfold monthOfDays civilMp civilDoy civilYoe civilDoe
  split <;> omega

theorem monthNameOfDays_mem (z : Nat) : monthNameOfDays z ∈ monthNamesFull := by
  have h1 := (monthOfDays_bounds z).1
  have h2 := (monthOfDays_bounds z).2
  unfold monthNameOfDays
  set m := monthOfDays z with hm
  interval_cases m <;> simp [monthNamesFull]

/-! ### Catalog pipeline (`process_song_data`) -/

/-- Projection for the Songs table:
`df.select('song_id', 'title', 'artist_name', 'artist_id', 'year', 'duration')`. -/
def songProj (r : CatalogRecord) : SongRow :=
  { song_id := r.song_id, title := r.title, artist_name := r.artist_name
  , artist_id := r.artist_id, year := r.year, duration := r.duration }

/-- The Songs table: projection then `dropDuplicates(['song_id'])`. -/
def songsTable (catalog : List CatalogRecord) : List SongRow :=
  dedupByKey (fun r => r.song_id) (catalog.map songProj)

/-- Projection for the Artists table (the SQL `SELECT ... FROM songs`,
where the temp view `songs` is the full unfiltered record set `df`). -/
def artistProj (r : CatalogRecord) : ArtistRow :=
  { artist_id := r.artist_id, name := r.artist_name, loc := r.artist_location
  , latitude := r.artist_latitude, longitude := r.artist_longitude }

/-- The Artists table: `SELECT distinct` over the full record set. -/
def artistsTable (catalog : List CatalogRecord) : List ArtistRow :=
  dedupByKey id (catalog.map artistProj)

/-! ### Event pipeline (`process_log_data`) -/

/-- `df.filter(df.page == "NextSong")`. -/
def playsOf (logs : List UsageEvent) : List UsageEvent :=
  logs.filter fun e => e.page == "NextSong"

/-- Projection for the Users table:
`df.select('userId', 'firstName', 'lastName', 'gender', 'level')`. -/
def userProj (e : UsageEvent) : UserRow :=
  { user_id := e.userId, first_name := e.firstName, last_name := e.lastName
  , gender := e.gender, level := e.level }

/-- The Users table: projection over ALL events (not just plays), then
`dropDuplicates()` over the whole five-field row. -/
def usersTable (logs : List UsageEvent) : List UserRow :=
  dedupByKey id (logs.map userProj)

/-- The value of the derived `datetime` column:
`from_unixtime(ts/1000)` formats whole epoch seconds (truncating the
millisecond remainder) and `to_timestamp` parses that string back, so the
net value is `ts / 1000` seconds since the epoch. -/
def datetimeOfEvent (e : UsageEvent) : Nat :=
  e.ts / 1000

/-- The full event set with the `timestamp`/`datetime` columns attached
(`df.withColumn('timestamp', ...)` then `withColumn('datetime', ...)`). -/
def withDatetimeAll (logs : List UsageEvent) : List (UsageEvent × Nat) :=
  logs.map fun e => (e, datetimeOfEvent e)

/-- The filtered plays with the `timestamp`/`datetime` columns attached
(`df_filtered.withColumn(...)`). -/
def withDatetimePlays (logs : List UsageEvent) : List (UsageEvent × Nat) :=
  (playsOf logs).map fun e => (e, datetimeOfEvent e)

/-- One Time-table row, computed from a `datetime` value `t` (epoch
seconds): the `select` of datetime, Hour, DOW, DOM, DOY, Month, year plus
the extra `week` column. -/
def timeRowOf (t : Nat) : TimeRow :=
  { datetime := t
  , hour := hourOfSeconds t
  , dow := dowShortOfDays (t / 86400)
  , dom := dayOfDays (t / 86400)
  , doy := dayOfYearOfDays (t / 86400)
  , month := monthNameOfDays (t / 86400)
  , year := yearOfDays (t / 86400)
  , week := weekOfYearOfDays (t / 86400) }

/-- The Time table: calendar decomposition of the plays' datetimes, then
`dropDuplicates()` over the whole row. -/
def timeTable (logs : List UsageEvent) : List TimeRow :=
  dedupByKey id ((withDatetimePlays logs).map fun p => timeRowOf p.2)

/-- The join predicate of the Songplays derivation:
`(df_filtered.artist == song_df.artist_name) &
(df_filtered.song == song_df.title) &
(df_filtered.length == song_df.duration)` — exact equality on all three. -/
def joinMatches (e : UsageEvent) (s : SongRow) : Bool :=
  decide (e.artist = s.artist_name) && decide (e.song = s.title)
    && decide (e.length = s.duration)

/-- Left-outer join of the enriched plays against the Songs rows: every
play is retained; a play with no matching song yields one row paired with
`none`, a play with matching songs yields one row per match. -/
def leftOuterJoin (plays : List (UsageEvent × Nat)) (songs : List SongRow) :
    List ((UsageEvent × Nat) × Option SongRow) :=
  plays.flatMap fun p =>
    if (songs.filter fun s => joinMatches p.1 s).isEmpty then [(p, none)]
    else (songs.filter fun s => joinMatches p.1 s).map fun s => (p, some s)

/-- Projection of one joined row to the Songplays schema, with the
surrogate id `i` supplied by `monotonically_increasing_id()`. -/
def songplayRowOf (p : UsageEvent × Nat) (m : Option SongRow) (i : Nat) :
    SongplayRow :=
  { timestamp := p.2
  , user_id := p.1.userId
  , level := p.1.level
  , song_id := m.map fun s => s.song_id
  , artist_id := m.map fun s => s.artist_id
  , session_id := p.1.sessionId
  , loc := p.1.location
  , user_agent := p.1.userAgent
  , month := monthNameOfDays (p.2 / 86400)
  , year := yearOfDays (p.2 / 86400)
  , songplay_id := i }

/-- The Songplays table derived from a given Songs dataset (the rows read
back from the sink) and the usage logs. -/
def songplaysRows (songs : List SongRow) (logs : List UsageEvent) :
    List SongplayRow :=
  (leftOuterJoin (withDatetimePlays logs) songs).enum.map
    fun x => songplayRowOf x.2.1 x.2.2 x.1

/-- The Songplays table of a run in which the Songs data read back from
the sink is exactly the Songs table of the current catalog input. -/
def songplaysTable (catalog : List CatalogRecord) (logs : List UsageEvent) :
    List SongplayRow :=
  songplaysRows (songsTable catalog) logs

/-! ### The sink and the two pipeline procedures -/

/-- The sink: one optional table per output sub-path (`none` = never
written).  Writes are full-overwrite. -/
structure Store where
  songs : Option (List SongRow)
  artists : Option (List ArtistRow)
  users : Option (List UserRow)
  time : Option (List TimeRow)
  songplays : Option (List SongplayRow)
deriving DecidableEq

/-- `process_song_data`: derive and write the Songs and Artists tables
(overwrite mode). -/
def process_song_data (catalog : List CatalogRecord) (st : Store) : Store :=
  { st with songs := some (songsTable catalog)
          , artists := some (artistsTable catalog) }

/-- `process_log_data`: write Users and Time, then read the Songs data
back from the sink and derive Songplays.  The read fails (Spark raises
`AnalysisException: Path does not exist`) only when nothing is present at
the songs path; any Songs data that is present — fresh or stale — is
joined against without any staleness check. -/
def process_log_data (logs : List UsageEvent) (st : Store) :
    Except String Store :=
  let st1 := { st with users := some (usersTable logs) }
  let st2 := { st1 with time := some (timeTable logs) }
  match st2.songs with
  | none => Except.error "Path does not exist: songs/songs.parquet"
  | some songRows =>
      Except.ok { st2 with songplays := some (songplaysRows songRows logs) }

/-- `main`: run the catalog pipeline, then the event pipeline, against
the same store. -/
def main_run (catalog : List CatalogRecord) (logs : List UsageEvent)
    (st : Store) : Except String Store :=
  process_log_data logs (process_song_data catalog st)

/-- The store state after a successful run on the given inputs. -/
def finalStore (catalog : List CatalogRecord) (logs : List UsageEvent) :
    Store :=
  { songs := some (songsTable catalog)
  , artists := some (artistsTable catalog)
  , users := some (usersTable logs)
  , time := some (timeTable logs)
  , songplays := some (songplaysTable catalog logs) }

theorem main_run_eq (catalog : List CatalogRecord) (logs : List UsageEvent)
    (st : Store) : main_run catalog logs st = Except.ok (finalStore catalog logs) :=
  rfl

/-! ### Partitioned writes

Modelled from the spec: the physical parquet writer is an external
collaborator (the repository only invokes `write.partitionBy(...)`);
per §4.3/§6 of the design, each row of a partitioned write lands under
the table path extended by `key=value` directories, one per partition
column, in order. -/

/-- Path of one row under a partitioned write, as the list of nested
directory segments: the table path followed by one `key=value` segment
per partition column, in order. -/
def partitionedWrite {α : Type} (path : String)
    (keys : List (String × (α → String))) (rows : List α) :
    List (List String × α) :=
  rows.map fun r => (path :: keys.map fun kv => kv.1 ++ "=" ++ kv.2 r, r)

/-- `songs_table.write.partitionBy('year', 'artist_id').parquet(output_data + 'songs/songs.parquet')`. -/
def songsWrite (output_data : String) (catalog : List CatalogRecord) :
    List (List String × SongRow) :=
  partitionedWrite (output_data ++ "songs/songs.parquet")
    [("year", fun r => toString r.year), ("artist_id", fun r => r.artist_id)]
    (songsTable catalog)

/-- `time_table.write.partitionBy("year", "month").parquet(output_data + "/time/time.parquet")`
(column resolution is case-insensitive: "month" binds the `Month` column,
which holds the full month name). -/
def timeWrite (output_data : String) (logs : List UsageEvent) :
    List (List String × TimeRow) :=
  partitionedWrite (output_data ++ "/time/time.parquet")
    [("year", fun r => toString r.year), ("month", fun r => r.month)]
    (timeTable logs)

/-- `songplays_table.write.partitionBy("year", "month").parquet(output_data + "/songplays/songplays.parquet")`. -/
def songplaysWrite (output_data : String) (catalog : List CatalogRecord)
    (logs : List UsageEvent) : List (List String × SongplayRow) :=
  partitionedWrite (output_data ++ "/songplays/songplays.parquet")
    [("year", fun r => toString r.year), ("month", fun r => r.month)]
    (songplaysTable catalog logs)

/-! ### Structural lemmas about the derived tables -/

theorem timeTable_mem_eq (logs : List UsageEvent) :
    ∀ r ∈ timeTable logs, r = timeRowOf r.datetime := by
  intro r hr
  obtain ⟨p, _, hp⟩ := List.mem_map.mp (mem_of_mem_dedupByKey hr)
  subst hp
  rfl

theorem mem_usersTable_of_mem {logs : List UsageEvent} {e : UsageEvent}
    (he : e ∈ logs) : userProj e ∈ usersTable logs :=
  mem_dedupByKey_id (List.mem_map_of_mem userProj he)

/-- Claim C3: for every input, the Songs table contains no two rows with
the same song_id, and the Time table contains no two rows with the same
datetime value. -/
theorem songs_time_key_unique (catalog : List CatalogRecord)
    (logs : List UsageEvent) :
    (songsTable catalog).Pairwise (fun a b => a.song_id ≠ b.song_id)
    ∧ (timeTable logs).Pairwise (fun a b => a.datetime ≠ b.datetime) := by
  constructor
  · exact pairwise_dedupByKey _ _
  · have hpw := pairwise_dedupByKey id
      ((withDatetimePlays logs).map fun p => timeRowOf p.2)
    refine hpw.imp_of_mem ?_
    intro a b ha hb hne heq
    apply hne
    have ea := timeTable_mem_eq logs a ha
    have eb := timeTable_mem_eq logs b hb
    show a = b
    rw [ea, eb, heq]

/-- Claim C4: the Users table is derived from all usage events (not just
plays), projected to the five fields and deduplicated over the full
five-field tuple with level in the distinct key: two events for the same
user_id with level "free" and then "paid" yield two distinct Users rows
for that user_id. -/
theorem users_level_included (logs : List UsageEvent) (e₁ e₂ : UsageEvent)
    (h₁ : e₁ ∈ logs) (h₂ : e₂ ∈ logs) (hid : e₁.userId = e₂.userId)
    (hfree : e₁.level = "free") (hpaid : e₂.level = "paid") :
    (∀ e ∈ logs, userProj e ∈ usersTable logs)
    ∧ userProj e₁ ∈ usersTable logs ∧ userProj e₂ ∈ usersTable logs
    ∧ userProj e₁ ≠ userProj e₂
    ∧ (userProj e₁).user_id = (userProj e₂).user_id := by
  refine ⟨fun e he => mem_usersTable_of_mem he,
    mem_usersTable_of_mem h₁, mem_usersTable_of_mem h₂, ?_, hid⟩
  intro hcontra
  have hlv : (userProj e₁).level = (userProj e₂).level :=
    congrArg UserRow.level hcontra
  simp [userProj, hfree, hpaid] at hlv

/-- Claim C5: the Artists table is the distinct set of projected rows
over the full unfiltered catalog record set (not the song_id-deduplicated
Songs set): two records with the same artist_id but differing location
both survive as separate rows, and nothing else appears. -/
theorem artists_full_record_set (catalog : List CatalogRecord)
    (r₁ r₂ : CatalogRecord) (h₁ : r₁ ∈ catalog) (h₂ : r₂ ∈ catalog)
    (hid : r₁.artist_id = r₂.artist_id)
    (hloc : r₁.artist_location ≠ r₂.artist_location) :
    (∀ r ∈ catalog, artistProj r ∈ artistsTable catalog)
    ∧ (∀ a ∈ artistsTable catalog, ∃ r ∈ catalog, a = artistProj r)
    ∧ artistProj r₁ ∈ artistsTable catalog
    ∧ artistProj r₂ ∈ artistsTable catalog
    ∧ artistProj r₁ ≠ artistProj r₂
    ∧ (artistProj r₁).artist_id = (artistProj r₂).artist_id := by
  have hall : ∀ r ∈ catalog, artistProj r ∈ artistsTable catalog :=
    fun r hr => mem_dedupByKey_id (List.mem_map_of_mem artistProj hr)
  have hsur : ∀ a ∈ artistsTable catalog, ∃ r ∈ catalog, a = artistProj r := by
    intro a ha
    obtain ⟨r, hr, hra⟩ := List.mem_map.mp (mem_of_mem_dedupByKey ha)
    exact ⟨r, hr, hra.symm⟩
  refine ⟨hall, hsur, hall r₁ h₁, hall r₂ h₂, ?_, hid⟩
  intro hcontra
  exact hloc (congrArg ArtistRow.loc hcontra)

/-- Claim C6: for every event, the derived datetime is `ts` (epoch
milliseconds) divided by 1000, interpreted as epoch seconds; the computed
column is attached both to the full event set and to the filtered plays
set. -/
theorem datetime_from_ts (logs : List UsageEvent) (e : UsageEvent) (dt : Nat) :
    ((e, dt) ∈ withDatetimePlays logs →
      dt = e.ts / 1000 ∧ e ∈ logs ∧ e.page = "NextSong")
    ∧ (e ∈ logs → e.page = "NextSong" →
      (e, e.ts / 1000) ∈ withDatetimePlays logs)
    ∧ (e ∈ logs → (e, e.ts / 1000) ∈ withDatetimeAll logs) := by
  refine ⟨?_, ?_, ?_⟩
  · intro h
    simp only [withDatetimePlays, List.mem_map, playsOf, List.mem_filter] at h
    obtain ⟨e', ⟨hel, hpage⟩, heq⟩ := h
    injection heq with he hdt
    subst he
    subst hdt
    exact ⟨rfl, hel, by simpa using hpage⟩
  · intro hel hpage
    refine List.mem_map.mpr ⟨e, ?_, rfl⟩
    exact List.mem_filter.mpr ⟨hel, by simpa using hpage⟩
  · intro hel
    exact List.mem_map.mpr ⟨e, hel, rfl⟩

/-- Claim C10: the Users derivation applies no filtering or validation
before its distinct projection: an event with an empty user_id (a
logged-out interaction, never a play) still produces a Users row with
that empty user_id. -/
theorem users_keep_empty_userId (logs : List UsageEvent) (e : UsageEvent)
    (he : e ∈ logs) (hempty : e.userId = "") :
    userProj e ∈ usersTable logs ∧ (userProj e).user_id = "" :=
  ⟨mem_usersTable_of_mem he, hempty⟩

/-! ### Lemmas about the left-outer join -/

theorem mem_leftOuterJoin_some (plays : List (UsageEvent × Nat))
    (songs : List SongRow) {p : UsageEvent × Nat} {s : SongRow}
    (hp : p ∈ plays) (hs : s ∈ songs) (hm : joinMatches p.1 s = true) :
    (p, some s) ∈ leftOuterJoin plays songs := by
  simp only [leftOuterJoin, List.mem_flatMap]
  refine ⟨p, hp, ?_⟩
  have hsf : s ∈ songs.filter fun t => joinMatches p.1 t :=
    List.mem_filter.mpr ⟨hs, hm⟩
  have hne : (songs.filter fun t => joinMatches p.1 t).isEmpty = false := by
    cases hq : songs.filter fun t => joinMatches p.1 t with
    | nil => rw [hq] at hsf; exact absurd hsf (List.not_mem_nil s)
    | cons _ _ => rfl
  rw [if_neg (by simp [hne])]
  exact List.mem_map.mpr ⟨s, hsf, rfl⟩

theorem mem_leftOuterJoin_none (plays : List (UsageEvent × Nat))
    (songs : List SongRow) {p : UsageEvent × Nat} (hp : p ∈ plays)
    (hnone : ∀ s ∈ songs, joinMatches p.1 s = false) :
    (p, none) ∈ leftOuterJoin plays songs := by
  have hfe : (songs.filter fun t => joinMatches p.1 t) = [] :=
    List.filter_eq_nil_iff.mpr fun a ha => by simp [hnone a ha]
  simp only [leftOuterJoin, List.mem_flatMap]
  exact ⟨p, hp, by simp [hfe]⟩

theorem some_mem_leftOuterJoin_elim {plays : List (UsageEvent × Nat)}
    {songs : List SongRow} {p : UsageEvent × Nat} {s : SongRow}
    (h : (p, some s) ∈ leftOuterJoin plays songs) :
    p ∈ plays ∧ s ∈ songs ∧ joinMatches p.1 s = true := by
  simp only [leftOuterJoin, List.mem_flatMap] at h
  obtain ⟨a, ha, hmem⟩ := h
  by_cases hfe : (songs.filter fun t => joinMatches a.1 t).isEmpty = true
  · rw [if_pos hfe] at hmem
    simp at hmem
  · rw [if_neg hfe] at hmem
    obtain ⟨t, ht, hts⟩ := List.mem_map.mp hmem
    injection hts with h1 h2
    injection h2 with h2
    subst h1
    subst h2
    exact ⟨ha, (List.mem_filter.mp ht).1, (List.mem_filter.mp ht).2⟩

theorem filter_matches_length_le_one (songs : List SongRow)
    (hu : songs.Pairwise fun s t =>
      ¬(s.artist_name = t.artist_name ∧ s.title = t.title
        ∧ s.duration = t.duration))
    (e : UsageEvent) :
    (songs.filter fun s => joinMatches e s).length ≤ 1 := by
  have hpw := hu.filter fun s => joinMatches e s
  cases hfl : songs.filter fun s => joinMatches e s with
  | nil => simp
  | cons a tl =>
    cases tl with
    | nil => simp
    | cons b tl2 =>
      exfalso
      rw [hfl] at hpw
      have hab := (List.pairwise_cons.mp hpw).1 b (List.mem_cons_self _ _)
      have haf : a ∈ songs.filter fun s => joinMatches e s := by
        rw [hfl]; exact List.mem_cons_self _ _
      have hbf : b ∈ songs.filter fun s => joinMatches e s := by
        rw [hfl]; exact List.mem_cons_of_mem _ (List.mem_cons_self _ _)
      have ha := (List.mem_filter.mp haf).2
      have hb := (List.mem_filter.mp hbf).2
      simp only [joinMatches, Bool.and_eq_true, decide_eq_true_eq] at ha hb
      exact hab ⟨ha.1.1.symm.trans hb.1.1, ha.1.2.symm.trans hb.1.2,
        ha.2.symm.trans hb.2⟩

theorem length_leftOuterJoin_of_unique (songs : List SongRow)
    (hu : songs.Pairwise fun s t =>
      ¬(s.artist_name = t.artist_name ∧ s.title = t.title
        ∧ s.duration = t.duration)) :
    ∀ plays, (leftOuterJoin plays songs).length = plays.length := by
  intro plays
  induction plays with
  | nil => rfl
  | cons p ps ih =>
    simp only [leftOuterJoin, List.flatMap_cons, List.length_append,
      List.length_cons] at ih ⊢
    have hb : (if (songs.filter fun s => joinMatches p.1 s).isEmpty
        then [(p, (none : Option SongRow))]
        else (songs.filter fun s => joinMatches p.1 s).map
          fun s => (p, some s)).length = 1 := by
      by_cases hfe : (songs.filter fun s => joinMatches p.1 s).isEmpty = true
      · rw [if_pos hfe]; rfl
      · rw [if_neg hfe, List.length_map]
        have hle := filter_matches_length_le_one songs hu p.1
        have hge : 1 ≤ (songs.filter fun s => joinMatches p.1 s).length := by
          cases hq : songs.filter fun s => joinMatches p.1 s with
          | nil => rw [hq] at hfe; exact absurd rfl hfe
          | cons _ _ => simp
        omega
    rw [hb, ih]
    omega

theorem exists_mem_enumFrom {β : Type} (a : β) :
    ∀ (l : List β) (n : Nat), a ∈ l → ∃ i, (i, a) ∈ l.enumFrom n := by
  intro l
  induction l with
  | nil => intro n h; exact absurd h (List.not_mem_nil a)
  | cons x xs ih =>
    intro n h
    rcases List.mem_cons.mp h with h | h
    · subst h; exact ⟨n, by simp⟩
    · obtain ⟨i, hi⟩ := ih (n + 1) h
      exact ⟨i, by simp [hi]⟩

theorem mem_songplaysRows_of_mem_join {songs : List SongRow}
    {logs : List UsageEvent} {q : (UsageEvent × Nat) × Option SongRow}
    (h : q ∈ leftOuterJoin (withDatetimePlays logs) songs) :
    ∃ r ∈ songplaysRows songs logs,
      r = songplayRowOf q.1 q.2 r.songplay_id := by
  obtain ⟨i, hi⟩ := exists_mem_enumFrom q (leftOuterJoin (withDatetimePlays logs) songs) 0 h
  refine ⟨songplayRowOf q.1 q.2 i, ?_, rfl⟩
  exact List.mem_map.mpr ⟨(i, q), hi, rfl⟩

/-- Claim C1 (amended): the number of Songplays rows equals the number of
events with page "NextSong" PROVIDED the Songs table contains no two rows
that agree on the whole join key (artist_name, title, duration); without
that proviso the left join retains every play but may duplicate one. -/
theorem songplays_count_eq_plays (catalog : List CatalogRecord)
    (logs : List UsageEvent)
    (hu : (songsTable catalog).Pairwise fun s t =>
      ¬(s.artist_name = t.artist_name ∧ s.title = t.title
        ∧ s.duration = t.duration)) :
    (songplaysTable catalog logs).length = (playsOf logs).length := by
  unfold songplaysTable songplaysRows
  rw [List.length_map, List.enum_eq_enumFrom, List.enumFrom_length,
    length_leftOuterJoin_of_unique (songsTable catalog) hu]
  unfold withDatetimePlays
  exact List.length_map _ _

/-- Claim C2: a play matches a catalog row exactly when its artist equals
the song's artist_name, its song equals the title and its length equals
the duration (exact equality, no approximate matching); a match
contributes a Songplays row carrying that song's song_id/artist_id, and a
play with no match still contributes a row with both ids null. -/
theorem songplays_join_semantics (catalog : List CatalogRecord)
    (logs : List UsageEvent) (p : UsageEvent × Nat)
    (hp : p ∈ withDatetimePlays logs) :
    (∀ s : SongRow,
      ((p, some s) ∈ leftOuterJoin (withDatetimePlays logs) (songsTable catalog)
        ↔ s ∈ songsTable catalog ∧ p.1.artist = s.artist_name
            ∧ p.1.song = s.title ∧ p.1.length = s.duration))
    ∧ (∀ s ∈ songsTable catalog,
        p.1.artist = s.artist_name → p.1.song = s.title →
        p.1.length = s.duration →
        ∃ r ∈ songplaysTable catalog logs,
          r.song_id = some s.song_id ∧ r.artist_id = some s.artist_id
          ∧ r.user_id = p.1.userId ∧ r.session_id = p.1.sessionId
          ∧ r.level = p.1.level ∧ r.loc = p.1.location
          ∧ r.user_agent = p.1.userAgent ∧ r.timestamp = p.2)
    ∧ ((∀ s ∈ songsTable catalog,
          ¬(p.1.artist = s.artist_name ∧ p.1.song = s.title
            ∧ p.1.length = s.duration)) →
        ∃ r ∈ songplaysTable catalog logs,
          r.song_id = none ∧ r.artist_id = none
          ∧ r.user_id = p.1.userId ∧ r.session_id = p.1.sessionId
          ∧ r.timestamp = p.2) := by
  refine ⟨?_, ?_, ?_⟩
  · intro s
    constructor
    · intro h
      obtain ⟨_, hs, hm⟩ := some_mem_leftOuterJoin_elim h
      simp only [joinMatches, Bool.and_eq_true, decide_eq_true_eq] at hm
      exact ⟨hs, hm.1.1, hm.1.2, hm.2⟩
    · rintro ⟨hs, h1, h2, h3⟩
      exact mem_leftOuterJoin_some _ _ hp hs
        (by simp [joinMatches, h1, h2, h3])
  · intro s hs h1 h2 h3
    have hj := mem_leftOuterJoin_some (withDatetimePlays logs)
      (songsTable catalog) hp hs (by simp [joinMatches, h1, h2, h3])
    obtain ⟨r, hr, hre⟩ := mem_songplaysRows_of_mem_join hj
    refine ⟨r, hr, ?_⟩
    rw [hre]
    simp [songplayRowOf]
  · intro hnone
    have hF : ∀ s ∈ songsTable catalog, joinMatches p.1 s = false := by
      intro s hs
      rw [Bool.eq_false_iff]
      intro htrue
      simp only [joinMatches, Bool.and_eq_true, decide_eq_true_eq] at htrue
      exact hnone s hs ⟨htrue.1.1, htrue.1.2, htrue.2⟩
    have hj := mem_leftOuterJoin_none (withDatetimePlays logs)
      (songsTable catalog) hp hF
    obtain ⟨r, hr, hre⟩ := mem_songplaysRows_of_mem_join hj
    refine ⟨r, hr, ?_⟩
    rw [hre]
    simp [songplayRowOf]

theorem timeTable_month_mem (logs : List UsageEvent) :
    ∀ r ∈ timeTable logs, r.month ∈ monthNamesFull := by
  intro r hr
  rw [timeTable_mem_eq logs r hr]
  exact monthNameOfDays_mem _

theorem songplaysRows_month_mem (songs : List SongRow)
    (logs : List UsageEvent) :
    ∀ r ∈ songplaysRows songs logs, r.month ∈ monthNamesFull := by
  intro r hr
  obtain ⟨x, _, hxe⟩ := List.mem_map.mp hr
  subst hxe
  exact monthNameOfDays_mem _

/-- Claim C7 (amended): the code has no explicit staleness guard.  The
Songplays derivation fails only when nothing at all is present at the
songs path (the read errors out); `main` satisfies the dependency by
running the catalog pipeline first, so the join then uses exactly the
Songs table of the current catalog input. -/
theorem songplays_dependency_sequencing (catalog : List CatalogRecord)
    (logs : List UsageEvent) (st : Store) :
    (process_log_data logs { st with songs := none }).isOk = false
    ∧ ∃ st', main_run catalog logs st = Except.ok st'
        ∧ st'.songplays = some (songplaysRows (songsTable catalog) logs) :=
  ⟨rfl, finalStore catalog logs, main_run_eq catalog logs st, rfl⟩

/-- Claim C8: running the full pipeline twice on identical inputs
reproduces the same Songs, Artists, Users and Time tables; the Songplays
table is also reproduced row for row (the surrogate ids of the sequential
model happen to coincide as well, which the claim permits). -/
theorem pipeline_idempotent (catalog : List CatalogRecord)
    (logs : List UsageEvent) (st : Store) :
    ∃ st₁ st₂, main_run catalog logs st = Except.ok st₁
      ∧ main_run catalog logs st₁ = Except.ok st₂
      ∧ st₂.songs = st₁.songs ∧ st₂.artists = st₁.artists
      ∧ st₂.users = st₁.users ∧ st₂.time = st₁.time
      ∧ st₂.songplays = st₁.songplays :=
  ⟨finalStore catalog logs, finalStore catalog logs,
    main_run_eq catalog logs st, main_run_eq catalog logs _,
    rfl, rfl, rfl, rfl, rfl⟩

/-- Claim C9: every Songs row lands under a path encoding its
(year, artist_id); every Time and Songplays row lands under a path
encoding its (year, month), where the month partition value is the full
month name (an element of `monthNamesFull`), not a numeric month. -/
theorem partition_paths (out : String) (catalog : List CatalogRecord)
    (logs : List UsageEvent) :
    (∀ pr ∈ songsWrite out catalog,
      pr.1 = [out ++ "songs/songs.parquet", "year=" ++ toString pr.2.year,
        "artist_id=" ++ pr.2.artist_id])
    ∧ (∀ pr ∈ timeWrite out logs,
      pr.1 = [out ++ "/time/time.parquet", "year=" ++ toString pr.2.year,
        "month=" ++ pr.2.month] ∧ pr.2.month ∈ monthNamesFull)
    ∧ (∀ pr ∈ songplaysWrite out catalog logs,
      pr.1 = [out ++ "/songplays/songplays.parquet",
        "year=" ++ toString pr.2.year, "month=" ++ pr.2.month]
      ∧ pr.2.month ∈ monthNamesFull) := by
  refine ⟨?_, ?_, ?_⟩
  · intro pr hpr
    obtain ⟨r, _, heq⟩ := List.mem_map.mp hpr
    subst heq
    rfl
  · intro pr hpr
    obtain ⟨r, hr, heq⟩ := List.mem_map.mp hpr
    subst heq
    exact ⟨rfl, timeTable_month_mem logs r hr⟩
  · intro pr hpr
    obtain ⟨r, hr, heq⟩ := List.mem_map.mp hpr
    subst heq
    exact ⟨rfl, songplaysRows_month_mem (songsTable catalog) logs r hr⟩

/-! ### Concrete sample data for witnesses and counterexamples -/

/-- An integer-valued rational, built without normalization so that
kernel reduction can evaluate equality tests on it. -/
def ratI (n : Int) : Rat :=
  ⟨n, 1, Nat.one_ne_zero, Nat.coprime_one_right _⟩

/-- The rational 210.5 (the duration from the spec's join example),
built without normalization. -/
def len210p5 : Rat := ⟨421, 2, by decide, by decide⟩

/-- A sample catalog record. -/
def catA : CatalogRecord :=
  { song_id := "SOAAA01", title := "Setanta matins", artist_id := "AR5QQ01"
  , artist_name := "Elena", artist_location := "Dublin"
  , artist_latitude := some (ratI 53), artist_longitude := some (ratI (-6))
  , year := 2004, duration := len210p5 }

/-- Same artist_id as `catA` but a different location (for C5). -/
def catC : CatalogRecord :=
  { catA with song_id := "SOCCC03", artist_location := "Cork" }

/-- A different song_id but the same (artist_name, title, duration) join
triple as `catA` (for the C1 counterexample). -/
def catDup : CatalogRecord :=
  { catA with song_id := "SODUP99", artist_id := "AR5QQ09" }

/-- A play event matching `catA` on the join triple. -/
def playX : UsageEvent :=
  { userId := "10", firstName := "Sylvie", lastName := "Cruz", gender := "F"
  , level := "paid", page := "NextSong", artist := "Elena"
  , song := "Setanta matins", length := len210p5, ts := 1541121934000
  , sessionId := 100, location := "LA", userAgent := "ua1" }

/-- A non-play event with level "free" (for C4). -/
def evFree : UsageEvent :=
  { userId := "10", firstName := "Sylvie", lastName := "Cruz", gender := "F"
  , level := "free", page := "Home", artist := "", song := ""
  , length := ratI 0, ts := 1541121934000, sessionId := 100
  , location := "LA", userAgent := "ua1" }

/-- A play event with level "paid" for the same user (for C4). -/
def evPaid : UsageEvent :=
  { evFree with level := "paid", page := "NextSong", ts := 1541200000000 }

/-- A logged-out interaction: empty userId, page is not "NextSong". -/
def evLoggedOut : UsageEvent :=
  { evFree with userId := "" }

/-- A stale Songs row (as left at the sink by some earlier run over a
different catalog) matching `playX` on the join triple. -/
def staleSong : SongRow :=
  { song_id := "STALE", title := "Setanta matins", artist_name := "Elena"
  , artist_id := "STALEART", year := 1999, duration := len210p5 }

/-- A store whose songs path holds only the stale data. -/
def staleStore : Store :=
  { songs := some [staleSong], artists := none, users := none
  , time := none, songplays := none }

/-- Counterexample to claim C1 as stated: two catalog records that share
the (artist_name, title, duration) triple under different song_ids both
survive the song_id-deduplication, so one matching play yields two
Songplays rows while only one event has page "NextSong". -/
theorem songplays_count_claim_cx :
    (songplaysTable [catA, catDup] [playX]).length = 2
    ∧ (playsOf [playX]).length = 1 :=
  ⟨by decide, by decide⟩

/-- Witness for C1 (amended) at a concrete input whose Songs table has
pairwise-distinct join triples. -/
theorem songplays_count_eq_plays_witness :
    (songplaysTable [catA] [playX, evFree]).length
      = (playsOf [playX, evFree]).length :=
  songplays_count_eq_plays [catA] [playX, evFree] (by decide)

/-- Witness for C2: the matching play/catalog pair from the spec example
shape yields a Songplays row carrying the catalog row's ids. -/
theorem songplays_join_semantics_witness :
    ∃ r ∈ songplaysTable [catA] [playX],
      r.song_id = some "SOAAA01" ∧ r.artist_id = some "AR5QQ01"
      ∧ r.user_id = "10" ∧ r.session_id = 100 := by
  obtain ⟨r, hr, h1, h2, h3, h4, -, -, -, -⟩ :=
    (songplays_join_semantics [catA] [playX] (playX, playX.ts / 1000)
      (by decide)).2.1 (songProj catA) (by decide) rfl rfl rfl
  exact ⟨r, hr, h1, h2, h3, h4⟩

/-- Witness for C4 at two concrete events for user "10", level "free"
then "paid". -/
theorem users_level_included_witness :
    userProj evFree ∈ usersTable [evFree, evPaid]
    ∧ userProj evPaid ∈ usersTable [evFree, evPaid]
    ∧ userProj evFree ≠ userProj evPaid := by
  obtain ⟨-, h1, h2, h3, -⟩ :=
    users_level_included [evFree, evPaid] evFree evPaid (by decide)
      (by decide) rfl rfl rfl
  exact ⟨h1, h2, h3⟩

/-- Witness for C5 at two concrete records sharing an artist_id with
different locations. -/
theorem artists_full_record_set_witness :
    artistProj catA ∈ artistsTable [catA, catC]
    ∧ artistProj catC ∈ artistsTable [catA, catC]
    ∧ artistProj catA ≠ artistProj catC := by
  obtain ⟨-, -, h1, h2, h3, -⟩ :=
    artists_full_record_set [catA, catC] catA catC (by decide) (by decide)
      rfl (by decide)
  exact ⟨h1, h2, h3⟩

/-- Witness for C6 at a concrete play: its ts in epoch milliseconds,
divided by 1000, appears as the attached datetime in both enriched sets. -/
theorem datetime_from_ts_witness :
    (playX, playX.ts / 1000) ∈ withDatetimePlays [playX]
    ∧ (playX, playX.ts / 1000) ∈ withDatetimeAll [playX] := by
  have h := datetime_from_ts [playX] playX (playX.ts / 1000)
  exact ⟨h.2.1 (by decide) rfl, h.2.2 (by decide)⟩

/-- Counterexample to claim C7 as stated: with stale Songs data sitting
at the sink, the Songplays derivation does NOT fail fast — it succeeds
and silently joins the play against the stale row. -/
theorem songplays_no_dependency_guard_cx :
    ∃ st', process_log_data [playX] staleStore = Except.ok st'
      ∧ st'.songplays = some (songplaysRows [staleSong] [playX])
      ∧ ∃ r ∈ songplaysRows [staleSong] [playX], r.song_id = some "STALE" := by
  refine ⟨_, rfl, rfl, ?_⟩
  decide

/-- Witness for C10 at a concrete logged-out event (empty userId, page
"Home"). -/
theorem users_keep_empty_userId_witness :
    userProj evLoggedOut ∈ usersTable [evLoggedOut, playX]
    ∧ (userProj evLoggedOut).user_id = "" :=
  users_keep_empty_userId [evLoggedOut, playX] evLoggedOut (by decide) rfl

/-- The Time row of `playX` (datetime 1541121934 = 2018-11-02 01:25:34,
a Friday, day 306 of 2018, ISO week 44). -/
def wTimeRow : TimeRow :=
  { datetime := 1541121934, hour := 1, dow := "Fri", dom := 2, doy := 306
  , month := "November", year := 2018, week := 44 }

/-- The Songplays row of `playX` joined with `catA`. -/
def wPlayRow : SongplayRow :=
  { timestamp := 1541121934, user_id := "10", level := "paid"
  , song_id := some "SOAAA01", artist_id := some "AR5QQ01"
  , session_id := 100, loc := "LA", user_agent := "ua1"
  , month := "November", year := 2018, songplay_id := 0 }

/-- Concrete written pairs for the C9 witness. -/
def wSongsPr : List String × SongRow :=
  (["songs/songs.parquet", "year=2004", "artist_id=AR5QQ01"], songProj catA)

def wTimePr : List String × TimeRow :=
  (["/time/time.parquet", "year=2018", "month=November"], wTimeRow)

def wPlaysPr : List String × SongplayRow :=
  (["/songplays/songplays.parquet", "year=2018", "month=November"], wPlayRow)

/-- Witness for C9 at concrete written rows. -/
theorem partition_paths_witness :
    wSongsPr.1 = ["songs/songs.parquet", "year=2004", "artist_id=AR5QQ01"]
    ∧ (wTimePr.1 = ["/time/time.parquet", "year=2018", "month=November"]
        ∧ wTimePr.2.month ∈ monthNamesFull)
    ∧ (wPlaysPr.1 = ["/songplays/songplays.parquet", "year=2018",
          "month=November"]
        ∧ wPlaysPr.2.month ∈ monthNamesFull) :=
  ⟨(partition_paths "" [catA] [playX]).1 wSongsPr (by decide),
   (partition_paths "" [catA] [playX]).2.1 wTimePr (by decide),
   (partition_paths "" [catA] [playX]).2.2 wPlaysPr (by decide)⟩

end Sparkify
